import Mathlib

/-!
Shallow embedding of the Qiniu API HTTP client helper (`client/client.go`).

The embedding translates the pure request/response logic of the Go source:
`parseError`, `ResponseError`, `CallRet`, `DoRequestWithForm` (with
`url.Values.Encode` / `url.QueryEscape` from Go's `net/url`), `SetAppName`,
and the header-mutation / pre-dispatch-cancellation part of `Client.Do`.
The response body is modelled as a string-valued stream whose remaining
contents and closed flag are threaded explicitly; `encoding/json` decoding
into the error struct is modelled by an executable JSON parser covering the
subset relevant to this client (objects, arrays, strings with the common
escapes, integer and decimal numbers, booleans, null); `\uXXXX` escapes are
treated as undecodable.  Header keys are assumed to be in the canonical MIME
form in which `net/http` stores them, so lookups are exact string matches.
-/

namespace QiniuClient

/-- `http.Header`: a map from canonical-cased header names to lists of
values, modelled as an association list. -/
abbrev Header := List (String × List String)

/-- Direct map indexing `h[k]` on an `http.Header` (`value, ok := h[k]`). -/
def headerIndex (h : Header) (k : String) : Option (List String) :=
  (h.find? (fun p => p.1 = k)).map (fun p => p.2)

/-- `http.Header.Get`: first value for the key, or `""` when absent.  The Go
implementation canonicalizes the key; callers in this client pass keys
already in canonical form. -/
def headerGet (h : Header) (k : String) : String :=
  match headerIndex h k with
  | some (v :: _) => v
  | _ => ""

/-- `http.Header.Set`: replace all values of the key by the single value. -/
def headerSet (h : Header) (k v : String) : Header :=
  (h.filter (fun p => p.1 ≠ k)) ++ [(k, [v])]

/-- `http.Header.Add`: append the value to the key's value list. -/
def headerAdd (h : Header) (k v : String) : Header :=
  if (h.find? (fun p => p.1 = k)).isSome then
    h.map (fun p => if p.1 = k then (p.1, p.2 ++ [v]) else p)
  else
    h ++ [(k, [v])]

/-- `strings.HasPrefix` / `String.startsWith`, over the character lists. -/
def strStartsWith (s pre : String) : Bool :=
  pre.toList.isPrefixOf s.toList

/-- `strings.ContainsRune`. -/
def containsRune (s : String) (c : Char) : Bool :=
  s.toList.contains c

/-- An `*http.Response` as consumed by `CallRet` / `ResponseError`: status
code, headers, the `ContentLength` field (`-1` when unknown), and the body
stream's contents. -/
structure Response where
  statusCode : Nat
  header : Header
  contentLength : Int
  body : String
deriving DecidableEq

/-- The `ErrorInfo` struct: structured error result of a failed API call. -/
structure ErrorInfo where
  Err : String
  Key : String
  Reqid : String
  Errno : Int
  Code : Nat
deriving DecidableEq

end QiniuClient

namespace QiniuClient.Json

/-!  Model of `encoding/json` unmarshalling into the anonymous struct
`{ Err string "json:error"; Key string "json:key"; Errno int "json:errno" }`
used by `parseError`. -/

/-- A parsed JSON value.  `jnum` is a number carrying a fraction or exponent
part: syntactically valid JSON, but not unmarshallable into an `int` field. -/
inductive Jval where
  | jnull
  | jbool (b : Bool)
  | jint (n : Int)
  | jnum
  | jstr (s : String)
  | jarr (elems : List Jval)
  | jobj (fields : List (String × Jval))

/-- JSON whitespace. -/
def isWs (c : Char) : Bool :=
  c = ' ' ∨ c = '\t' ∨ c = '\n' ∨ c = '\r'

/-- Drop leading JSON whitespace. -/
def skipWs : List Char → List Char
  | [] => []
  | c :: cs => if isWs c then skipWs cs else c :: cs

/-- Decode a single-character escape (after a backslash); `none` for the
escapes this model does not cover (`\uXXXX`). -/
def escChar (e : Char) : Option Char :=
  if e = '"' then some '"'
  else if e = '\\' then some '\\'
  else if e = '/' then some '/'
  else if e = 'n' then some '\n'
  else if e = 't' then some '\t'
  else if e = 'r' then some '\r'
  else if e = 'b' then some (Char.ofNat 8)
  else if e = 'f' then some (Char.ofNat 12)
  else none

/-- Parse the contents of a JSON string literal, the opening quote already
consumed; returns the decoded characters and the input after the closing
quote. -/
def parseStrChars : List Char → Option (List Char × List Char)
  | [] => none
  | '"' :: cs => some ([], cs)
  | '\\' :: [] => none
  | '\\' :: e :: cs =>
    match escChar e with
    | some d => (parseStrChars cs).map (fun p => (d :: p.1, p.2))
    | none => none
  | c :: cs => (parseStrChars cs).map (fun p => (c :: p.1, p.2))

/-- Split off a maximal run of leading decimal digits. -/
def takeDigits : List Char → List Char × List Char
  | [] => ([], [])
  | c :: cs =>
    if c.isDigit then
      match takeDigits cs with
      | (ds, rest) => (c :: ds, rest)
    else ([], c :: cs)

/-- Value of a digit run. -/
def digitsToNat (ds : List Char) : Nat :=
  ds.foldl (fun acc c => acc * 10 + (c.toNat - 48)) 0

/-- Parse an exponent tail (after `e`/`E`): optional sign, then digits. -/
def parseExpTail (cs : List Char) : Option (List Char) :=
  let cs1 := match cs with
    | '+' :: r => r
    | '-' :: r => r
    | _ => cs
  match takeDigits cs1 with
  | ([], _) => none
  | (_, rest) => some rest

/-- Parse a JSON number.  An integer literal yields `jint`; a literal with a
fraction or exponent part yields `jnum`. -/
def parseNum (cs : List Char) : Option (Jval × List Char) :=
  let p : Bool × List Char := match cs with
    | '-' :: r => (true, r)
    | _ => (false, cs)
  match takeDigits p.2 with
  | ([], _) => none
  | (ds, cs2) =>
    let intval : Int := if p.1 then -(digitsToNat ds : Int) else (digitsToNat ds : Int)
    match cs2 with
    | '.' :: cs3 =>
      (match takeDigits cs3 with
       | ([], _) => none
       | (_, cs4) =>
         match cs4 with
         | 'e' :: cs5 => (parseExpTail cs5).map (fun r => (Jval.jnum, r))
         | 'E' :: cs5 => (parseExpTail cs5).map (fun r => (Jval.jnum, r))
         | _ => some (Jval.jnum, cs4))
    | 'e' :: cs5 => (parseExpTail cs5).map (fun r => (Jval.jnum, r))
    | 'E' :: cs5 => (parseExpTail cs5).map (fun r => (Jval.jnum, r))
    | _ => some (Jval.jint intval, cs2)

/-- Parsing mode: one value, the elements of a non-empty array, or the
members of a non-empty object.  A single mode-indexed function keeps the
recursion structural on the fuel. -/
inductive PMode where
  | mv
  | mElems
  | mMembers

/-- Result of a parse in each mode. -/
inductive PRes where
  | rv (v : Jval)
  | rElems (vs : List Jval)
  | rMembers (fs : List (String × Jval))

/-- Fuel-bounded JSON parser: mode `mv` parses one value, `mElems` the
elements of a non-empty array up to and including `]`, `mMembers` the
members of a non-empty object up to and including `}`. -/
def parseJ : Nat → PMode → List Char → Option (PRes × List Char)
  | 0, _, _ => none
  | f + 1, PMode.mv, cs0 =>
    (match skipWs cs0 with
     | 'n' :: 'u' :: 'l' :: 'l' :: rest => some (PRes.rv Jval.jnull, rest)
     | 't' :: 'r' :: 'u' :: 'e' :: rest => some (PRes.rv (Jval.jbool true), rest)
     | 'f' :: 'a' :: 'l' :: 's' :: 'e' :: rest => some (PRes.rv (Jval.jbool false), rest)
     | '"' :: rest => (parseStrChars rest).map (fun p => (PRes.rv (Jval.jstr (String.mk p.1)), p.2))
     | '[' :: rest =>
       (match skipWs rest with
        | ']' :: rest2 => some (PRes.rv (Jval.jarr []), rest2)
        | _ =>
          match parseJ f PMode.mElems rest with
          | some (PRes.rElems vs, r) => some (PRes.rv (Jval.jarr vs), r)
          | _ => none)
     | '{' :: rest =>
       (match skipWs rest with
        | '}' :: rest2 => some (PRes.rv (Jval.jobj []), rest2)
        | _ =>
          match parseJ f PMode.mMembers rest with
          | some (PRes.rMembers fs, r) => some (PRes.rv (Jval.jobj fs), r)
          | _ => none)
     | cs => (parseNum cs).map (fun p => (PRes.rv p.1, p.2)))
  | f + 1, PMode.mElems, cs =>
    (match parseJ f PMode.mv cs with
     | some (PRes.rv v, rest) =>
       (match skipWs rest with
        | ',' :: rest2 =>
          (match parseJ f PMode.mElems rest2 with
           | some (PRes.rElems vs, r) => some (PRes.rElems (v :: vs), r)
           | _ => none)
        | ']' :: rest2 => some (PRes.rElems [v], rest2)
        | _ => none)
     | _ => none)
  | f + 1, PMode.mMembers, cs =>
    (match skipWs cs with
     | '"' :: rest =>
       (match parseStrChars rest with
        | none => none
        | some (kchars, rest1) =>
          match skipWs rest1 with
          | ':' :: rest2 =>
            (match parseJ f PMode.mv rest2 with
             | some (PRes.rv v, rest3) =>
               (match skipWs rest3 with
                | ',' :: rest4 =>
                  (match parseJ f PMode.mMembers rest4 with
                   | some (PRes.rMembers fs, r) =>
                     some (PRes.rMembers ((String.mk kchars, v) :: fs), r)
                   | _ => none)
                | '}' :: rest4 => some (PRes.rMembers [(String.mk kchars, v)], rest4)
                | _ => none)
             | _ => none)
          | _ => none)
     | _ => none)

/-- Parse one JSON value, fuel-bounded. -/
def parseVal (f : Nat) (cs : List Char) : Option (Jval × List Char) :=
  match parseJ f PMode.mv cs with
  | some (PRes.rv v, r) => some (v, r)
  | _ => none

/-- The target struct of `parseError`'s `json.Unmarshal`. -/
structure ErrRet where
  Err : String
  Key : String
  Errno : Int
deriving DecidableEq

/-- ASCII lower-casing of one character. -/
def lowerChar (c : Char) : Char :=
  if 'A' ≤ c ∧ c ≤ 'Z' then Char.ofNat (c.toNat + 32) else c

/-- Go's JSON field matching is case-insensitive on the tag name
(`strings.EqualFold`; the tags here are ASCII). -/
def fieldEq (k tag : String) : Bool :=
  k.toList.map lowerChar = tag.toList.map lowerChar

/-- Fold the members of a decoded JSON object into an `ErrRet`, the way
`encoding/json` assigns object members to struct fields: later duplicates
win, unknown members are ignored, `null` leaves a field unchanged, and a
type mismatch on a known field fails the unmarshal. -/
def decodeFields : List (String × Jval) → ErrRet → Option ErrRet
  | [], acc => some acc
  | (k, v) :: rest, acc =>
    if fieldEq k "error" then
      match v with
      | Jval.jstr s => decodeFields rest { acc with Err := s }
      | Jval.jnull => decodeFields rest acc
      | _ => none
    else if fieldEq k "key" then
      match v with
      | Jval.jstr s => decodeFields rest { acc with Key := s }
      | Jval.jnull => decodeFields rest acc
      | _ => none
    else if fieldEq k "errno" then
      match v with
      | Jval.jint n => decodeFields rest { acc with Errno := n }
      | Jval.jnull => decodeFields rest acc
      | _ => none
    else decodeFields rest acc

/-- `json.Unmarshal(body, &ret)` for `ret` of type `ErrRet`: parse exactly
one JSON value (trailing whitespace allowed, trailing data not), which must
be an object or `null`, and assign its members to the struct fields.
`none` models a non-nil unmarshal error. -/
def unmarshalErrRet (body : String) : Option ErrRet :=
  let cs := body.toList
  match parseVal (2 * cs.length + 2) cs with
  | none => none
  | some (v, rest) =>
    if (skipWs rest).isEmpty then
      match v with
      | Jval.jobj fs => decodeFields fs ⟨"", "", 0⟩
      | Jval.jnull => some ⟨"", "", 0⟩
      | _ => none
    else none

end QiniuClient.Json

namespace QiniuClient

open QiniuClient.Json

/-- `parseError(e, r)`: read the whole body (reading a string-modelled body
never fails, so the `ReadAll` error branch is dead here), try to unmarshal
it as `{error, key, errno}`; on success with a non-empty `error` field copy
those three fields into the `ErrorInfo`, otherwise use the verbatim body
text as the message. -/
def parseError (e : ErrorInfo) (body : String) : ErrorInfo :=
  match unmarshalErrRet body with
  | some ret =>
    if ret.Err ≠ "" then { e with Err := ret.Err, Key := ret.Key, Errno := ret.Errno }
    else { e with Err := body }
  | none => { e with Err := body }

/-- `ResponseError(resp)`: build an `ErrorInfo` carrying the status code and
the `X-Reqid` header; when the status exceeds 299, the `ContentLength` is
non-zero and the first `Content-Type` value starts with `application/json`,
additionally parse the body via `parseError` (consuming the body stream).
Returns the error together with the body stream's remaining contents.
(Go indexes `ct[0]` without a bounds check; a present header with an empty
value list would panic there and is treated as no match, since `net/http`
never produces one.) -/
def ResponseError (resp : Response) : ErrorInfo × String :=
  let e : ErrorInfo :=
    { Err := "", Key := "", Reqid := headerGet resp.header "X-Reqid",
      Errno := 0, Code := resp.statusCode }
  if resp.statusCode > 299 then
    if resp.contentLength ≠ 0 then
      match headerIndex resp.header "Content-Type" with
      | some (ct :: _) =>
        if strStartsWith ct "application/json" then (parseError e resp.body, "")
        else (e, resp.body)
      | _ => (e, resp.body)
    else (e, resp.body)
  else (e, resp.body)

/-- The error returned by `CallRet`: either the `json.Decoder.Decode` error
on a 2xx body that fails to decode, or an `ErrorInfo` from `ResponseError`. -/
inductive CallErr where
  | decodeErr
  | respErr (e : ErrorInfo)
deriving DecidableEq

/-- The response body stream at the end of a call: its unconsumed contents
and whether `Close` was called. -/
structure BodyState where
  remaining : String
  closed : Bool
deriving DecidableEq

/-- The two deferred statements of `CallRet`:
`io.Copy(ioutil.Discard, resp.Body)` reads the stream to exhaustion, then
`resp.Body.Close()` releases it. -/
def drainAndClose (_b : BodyState) : BodyState :=
  { remaining := "", closed := true }

/-- Result of `CallRet`: the decoded destination value (`none` when the
destination was not written), the returned error (`none` = success), and
the final state of the response body stream. -/
structure CallRetOut (α : Type) where
  dest : Option α
  err : Option CallErr
  body : BodyState
deriving DecidableEq

/-- The branch structure of `CallRet` before its deferred drain/close runs:
on a 2xx status with a non-nil destination and non-zero `ContentLength`,
decode one JSON value from the body into the destination (a decode failure
returns that error); then status 200 returns success; every remaining path
returns `ResponseError`.  The JSON decoding of the caller's destination
type is abstracted as `decode`, which consumes a prefix of the stream and
yields the value and the unconsumed rest. -/
def CallRetCore {α : Type} (decode : String → Option (α × String))
    (retSupplied : Bool) (resp : Response) : Option α × Option CallErr × String :=
  if resp.statusCode / 100 = 2 then
    if retSupplied ∧ resp.contentLength ≠ 0 then
      match decode resp.body with
      | none => (none, some CallErr.decodeErr, resp.body)
      | some (v, rest) =>
        if resp.statusCode = 200 then (some v, none, rest)
        else
          let er := ResponseError { resp with body := rest }
          (some v, some (CallErr.respErr er.1), er.2)
    else
      if resp.statusCode = 200 then (none, none, resp.body)
      else
        let er := ResponseError resp
        (none, some (CallErr.respErr er.1), er.2)
  else
    let er := ResponseError resp
    (none, some (CallErr.respErr er.1), er.2)

/-- `CallRet(ctx, ret, resp)`: the branch structure above, with the deferred
drain-and-close applied to the body stream on every return path. -/
def CallRet {α : Type} (decode : String → Option (α × String))
    (retSupplied : Bool) (resp : Response) : CallRetOut α :=
  let r := CallRetCore decode retSupplied resp
  { dest := r.1, err := r.2.1,
    body := drainAndClose { remaining := r.2.2, closed := false } }

/-- UTF-8 encoding of one character, as the list of its byte values. -/
def utf8Bytes (c : Char) : List Nat :=
  let n := c.toNat
  if n < 0x80 then [n]
  else if n < 0x800 then [0xC0 + n / 0x40, 0x80 + n % 0x40]
  else if n < 0x10000 then
    [0xE0 + n / 0x1000, 0x80 + n / 0x40 % 0x40, 0x80 + n % 0x40]
  else
    [0xF0 + n / 0x40000, 0x80 + n / 0x1000 % 0x40, 0x80 + n / 0x40 % 0x40, 0x80 + n % 0x40]

/-- The bytes of a string's UTF-8 encoding, the unit `url.QueryEscape`
works over. -/
def stringBytes (s : String) : List Nat :=
  (s.toList.map utf8Bytes).flatten

/-- An upper-case hexadecimal digit. -/
def hexDigit (n : Nat) : Char :=
  if n < 10 then Char.ofNat (48 + n) else Char.ofNat (55 + n)

/-- Whether `url.QueryEscape` leaves the byte unescaped: ASCII letters,
digits, and `-`, `_`, `.`, `~`. -/
def queryUnescaped (b : Nat) : Bool :=
  (65 ≤ b ∧ b ≤ 90) ∨ (97 ≤ b ∧ b ≤ 122) ∨ (48 ≤ b ∧ b ≤ 57) ∨
    b = 45 ∨ b = 95 ∨ b = 46 ∨ b = 126

/-- `url.QueryEscape` on one byte: unescaped bytes pass through, a space
becomes `+`, everything else becomes `%XX`. -/
def queryEscapeByte (b : Nat) : String :=
  if queryUnescaped b then String.mk [Char.ofNat b]
  else if b = 32 then "+"
  else String.mk [ '%', hexDigit (b / 16), hexDigit (b % 16)]

/-- `url.QueryEscape`. -/
def QueryEscape (s : String) : String :=
  String.join ((stringBytes s).map queryEscapeByte)

/-- Insert a string into an already-sorted list of strings. -/
def insortStr (x : String) : List String → List String
  | [] => [x]
  | y :: ys => if x ≤ y then x :: y :: ys else y :: insortStr x ys

/-- `sort.Strings`: lexicographic sort (insertion sort; Go map keys are
distinct, so stability is moot). -/
def sortStrs : List String → List String
  | [] => []
  | x :: xs => insortStr x (sortStrs xs)

/-- `url.Values.Encode()`: keys in sorted order, each value in order as
`escapedKey=escapedValue`, joined by `&`.  `url.Values` is a Go map from
key to value list, modelled as an association list with distinct keys. -/
def urlValuesEncode (data : List (String × List String)) : String :=
  let keys := sortStrs (data.map (fun p => p.1))
  let parts := (keys.map (fun k =>
    match data.find? (fun p => p.1 = k) with
    | some p => p.2.map (fun v => QueryEscape k ++ "=" ++ QueryEscape v)
    | none => [])).flatten
  String.intercalate "&" parts

/-- The request shaped by `DoRequestWithForm` before dispatch: method, final
URL, headers, and the body handed to `newRequest` (`none` = nil body). -/
structure FormedRequest where
  method : String
  url : String
  headers : Header
  reqBody : Option String
deriving DecidableEq

/-- `DoRequestWithForm`: add `Content-Type: application/x-www-form-urlencoded`,
URL-encode the form data; for GET/HEAD/DELETE append the encoding to the URL
(after `&` if the URL already contains `?`, else after `?`) and send no body;
for every other method send the encoding as the body.  This models the
request formation; dispatch is `Do`. -/
def DoRequestWithForm (method reqUrl : String) (headers : Option Header)
    (data : List (String × List String)) : FormedRequest :=
  let hs := match headers with
    | none => ([] : Header)
    | some h => h
  let hs := headerAdd hs "Content-Type" "application/x-www-form-urlencoded"
  let requestData := urlValuesEncode data
  if method = "GET" ∨ method = "HEAD" ∨ method = "DELETE" then
    let reqUrl := if containsRune reqUrl '?' then reqUrl ++ "&" else reqUrl ++ "?"
    { method := method, url := reqUrl ++ requestData, headers := hs, reqBody := none }
  else
    { method := method, url := reqUrl, headers := hs, reqBody := some requestData }

/-- `SetAppName(userApp)`: format the package-level `UserAgent` as
`QiniuGo/<version> (<os>; <arch>; <userApp>) <go-version>` and return `nil`.
The `[A-Za-z0-9_\ \-\.]*` requirement on `userApp` appears only in the
comment above the function; no validation is performed.  `conf.Version`,
`runtime.GOOS`, `runtime.GOARCH` and `runtime.Version()` are parameters of
the model.  Returns the new `UserAgent` and the (always-`none`) error. -/
def SetAppName (version goos goarch goVersion userApp : String) : String × Option String :=
  ("QiniuGo/" ++ version ++ " (" ++ goos ++ "; " ++ goarch ++ "; " ++ userApp ++ ") "
     ++ goVersion, none)

/-- Modelled from the spec: the character set `[A-Za-z0-9_ -.]` that the
specification says the application name is validated against.  No function
of the source performs this validation; the definition exists to compare
the spec's words with `SetAppName`. -/
def appNameCharsetValid (s : String) : Bool :=
  s.toList.all (fun c =>
    ('A' ≤ c ∧ c ≤ 'Z') ∨ ('a' ≤ c ∧ c ≤ 'z') ∨ ('0' ≤ c ∧ c ≤ '9') ∨
      c = '_' ∨ c = ' ' ∨ c = '-' ∨ c = '.')

/-- The context as `Client.Do` observes it: whether it is already cancelled
at entry (`ctx.Done()` closed, `ctx.Err()` non-nil), and the optional
request id carried for the `X-Reqid` header.  The in-flight cancellation
race after dispatch is inherently concurrent and is not modelled; only the
state at entry matters for the pre-dispatch check. -/
structure Ctx where
  cancelled : Bool
  reqid : Option String

/-- A request as `Do` mutates it: method, URL, headers. -/
structure Request where
  method : String
  url : String
  header : Header

/-- The error returned by `Do`: the context's error from the pre-dispatch
cancellation check (`CancellationError`), or an error from the underlying
transport. -/
inductive DoErr where
  | cancelled
  | transport (msg : String)

/-- Result of `Do`: the transport's response and error if it ran, whether
the transport was invoked at all, and the request after `Do`'s header
mutations. -/
structure DoOut where
  resp : Option Response
  err : Option DoErr
  transportInvoked : Bool
  req : Request

/-- `Client.Do(ctx, req)` up to the concurrency scaffolding: set `X-Reqid`
from the context when present; set the `User-Agent` header to the
package-level `UserAgent` (`ua`) unless the caller set one; then check the
context — if it is already cancelled return `ctx.Err()` without touching
the transport; otherwise invoke the transport (`r.Client.Do`) and return
its result. -/
def Do (ua : String) (ctx : Ctx) (req : Request)
    (transport : Request → Option Response × Option String) : DoOut :=
  let req := match ctx.reqid with
    | some rid => { req with header := headerSet req.header "X-Reqid" rid }
    | none => req
  let req := if (headerIndex req.header "User-Agent").isSome then req
             else { req with header := headerSet req.header "User-Agent" ua }
  if ctx.cancelled then
    { resp := none, err := some DoErr.cancelled, transportInvoked := false, req := req }
  else
    let tr := transport req
    { resp := tr.1, err := tr.2.map DoErr.transport, transportInvoked := true, req := req }

end QiniuClient

namespace QiniuClient

/-! Concrete inputs used by witnesses and counterexamples. -/

/-- A destination decoder that never succeeds (its type never occurs in the
relevant bodies); stands in for an arbitrary `interface` destination. -/
def decUnit : String → Option (Unit × String) := fun _ => none

/-- A decoder for a destination of a type whose JSON form is the literal
`7`. -/
def decNat7 : String → Option (Nat × String) :=
  fun s => if s = "7" then some (7, "") else none

/-- A 201 response with an empty body. -/
def respC1 : Response :=
  { statusCode := 201, header := [], contentLength := 0, body := "" }

/-- A 201 response with the decodable body `7`. -/
def respC2 : Response :=
  { statusCode := 201, header := [], contentLength := 1, body := "7" }

/-- A 200 response with the decodable body `7`. -/
def respC2w : Response :=
  { statusCode := 200, header := [], contentLength := 1, body := "7" }

/-- A 404 response carrying an `X-Reqid` header. -/
def respC3 : Response :=
  { statusCode := 404, header := [("X-Reqid", ["req-1"])], contentLength := 0, body := "" }

/-- A 400 response whose body is the non-JSON text `internal failure` under
`Content-Type: text/plain`. -/
def respC4 : Response :=
  { statusCode := 400, header := [("Content-Type", ["text/plain"])],
    contentLength := 16, body := "internal failure" }

/-- A 400 response whose body is the non-JSON text `internal failure` under
`Content-Type: application/json`. -/
def respC4j : Response :=
  { statusCode := 400, header := [("Content-Type", ["application/json"])],
    contentLength := 16, body := "internal failure" }

/-- A 199 response (non-2xx, but not above 299) carrying a well-formed JSON
error body under `Content-Type: application/json`. -/
def respC5 : Response :=
  { statusCode := 199, header := [("Content-Type", ["application/json"])],
    contentLength := 44,
    body := "\x7b\"error\":\"bad token\",\"key\":\"k1\",\"errno\":612\x7d" }

/-- A 400 response carrying the same JSON error body. -/
def respC5w : Response :=
  { statusCode := 400,
    header := [("Content-Type", ["application/json"]), ("X-Reqid", ["rq5"])],
    contentLength := 44,
    body := "\x7b\"error\":\"bad token\",\"key\":\"k1\",\"errno\":612\x7d" }

/-- A request with no caller-set headers. -/
def reqNoUA : Request :=
  { method := "GET", url := "http://x/y", header := [] }

/-- A transport that returns neither response nor error; its behaviour is
irrelevant to the pre-dispatch claims. -/
def transportNone : Request → Option Response × Option String :=
  fun _ => (none, none)

/-! Helper lemmas. -/

/-- `parseError` never touches the `Code` field. -/
theorem parseError_Code (e : ErrorInfo) (b : String) : (parseError e b).Code = e.Code := by
  unfold parseError
  rcases Json.unmarshalErrRet b with _ | r
  · rfl
  · by_cases h : r.Err = "" <;> simp [h]

/-- `parseError` never touches the `Reqid` field. -/
theorem parseError_Reqid (e : ErrorInfo) (b : String) : (parseError e b).Reqid = e.Reqid := by
  unfold parseError
  rcases Json.unmarshalErrRet b with _ | r
  · rfl
  · by_cases h : r.Err = "" <;> simp [h]

/-- `ResponseError` always records the status code. -/
theorem ResponseError_Code (resp : Response) :
    (ResponseError resp).1.Code = resp.statusCode := by
  unfold ResponseError
  split
  · split
    · split
      · split <;> simp [parseError_Code]
      · rfl
    · rfl
  · rfl

/-- `ResponseError` always records the `X-Reqid` header. -/
theorem ResponseError_Reqid (resp : Response) :
    (ResponseError resp).1.Reqid = headerGet resp.header "X-Reqid" := by
  unfold ResponseError
  split
  · split
    · split
      · split <;> simp [parseError_Reqid]
      · rfl
    · rfl
  · rfl

/-- For a status of at most 299, `ResponseError` never reads the body and
returns the bare `ErrorInfo`. -/
theorem ResponseError_le299 (resp : Response) (hle : resp.statusCode ≤ 299) :
    ResponseError resp =
      ({ Err := "", Key := "", Reqid := headerGet resp.header "X-Reqid",
         Errno := 0, Code := resp.statusCode }, resp.body) := by
  unfold ResponseError
  have h : ¬ resp.statusCode > 299 := by omega
  simp [h]

end QiniuClient

namespace QiniuClient

/-- After `headerSet h k v`, looking up `k` finds exactly `[v]`. -/
theorem headerIndex_headerSet_self (h : Header) (k v : String) :
    headerIndex (headerSet h k v) k = some [v] := by
  induction h with
  | nil => simp [headerIndex, headerSet]
  | cons p t ih =>
    by_cases hp : p.1 = k
    · simp [headerIndex, headerSet, hp]
    · simp [headerIndex, headerSet, hp, List.find?]

/-- `headerSet` on another key does not change a lookup. -/
theorem headerIndex_headerSet_ne (h : Header) (k k' v : String) (hne : k ≠ k') :
    headerIndex (headerSet h k' v) k = headerIndex h k := by
  have hpred : (fun a : String × List String => !decide (a.1 = k') && decide (a.1 = k))
      = (fun p : String × List String => decide (p.1 = k)) := by
    funext a
    by_cases ha : a.1 = k
    · have ha' : ¬ a.1 = k' := by rw [ha]; exact hne
      simp [ha, ha', hne]
    · simp [ha]
  simp [headerIndex, headerSet, Ne.symm hne, hpred]

/-- `headerGet` after `headerSet` returns the set value. -/
theorem headerGet_headerSet (h : Header) (k v : String) :
    headerGet (headerSet h k v) k = v := by
  simp [headerGet, headerIndex_headerSet_self]

/-- After `headerAdd h k v`, the key `k` maps to a value list containing
`v`. -/
theorem headerAdd_mem (h : Header) (k v : String) :
    ∃ vs, headerIndex (headerAdd h k v) k = some vs ∧ v ∈ vs := by
  unfold headerAdd
  by_cases hf : (h.find? (fun p => p.1 = k)).isSome
  · simp only [hf, if_true]
    induction h with
    | nil => simp at hf
    | cons p t ih =>
      by_cases hp : p.1 = k
      · exact ⟨p.2 ++ [v], by simp [headerIndex, List.find?, hp], by simp⟩
      · have hf' : (t.find? (fun p => p.1 = k)).isSome := by
          simpa [List.find?, hp] using hf
        obtain ⟨vs, hvs, hmem⟩ := ih hf'
        exact ⟨vs, by simpa [headerIndex, List.find?, hp] using hvs, hmem⟩
  · simp only [hf, if_false]
    refine ⟨[v], ?_, by simp⟩
    induction h with
    | nil => simp [headerIndex]
    | cons p t ih =>
      by_cases hp : p.1 = k
      · simp [List.find?, hp] at hf
      · have hf' : ¬ (t.find? (fun p => p.1 = k)).isSome := by
          simpa [List.find?, hp] using hf
        simpa [headerIndex, List.find?, hp] using ih hf'

end QiniuClient

namespace QiniuClient

/-- C1 counterexample: a 201 response with no destination and an empty body
(`ContentLength == 0`), on which the claim asserts success, yet `CallRet`
returns a non-nil error. -/
theorem C1_counterexample :
    respC1.statusCode = 201 ∧ respC1.contentLength = 0 ∧
      (CallRet decUnit false respC1).err ≠ none := by
  decide

/-- C1 (amended): for a response with status in [201,299] where no
destination was supplied or the body is empty (`ContentLength == 0`),
`CallRet` returns a non-nil `ErrorInfo` carrying the status code and the
`X-Reqid` header, with empty message fields — it does not succeed. -/
theorem C1_amended {α : Type} (decode : String → Option (α × String))
    (retSupplied : Bool) (resp : Response)
    (h1 : 201 ≤ resp.statusCode) (h2 : resp.statusCode ≤ 299)
    (h3 : retSupplied = false ∨ resp.contentLength = 0) :
    (CallRet decode retSupplied resp).err =
      some (CallErr.respErr
        { Err := "", Key := "", Reqid := headerGet resp.header "X-Reqid",
          Errno := 0, Code := resp.statusCode }) := by
  have hdiv : resp.statusCode / 100 = 2 := by omega
  have h200 : ¬ resp.statusCode = 200 := by omega
  have hcond : ¬ (retSupplied = true ∧ resp.contentLength ≠ 0) := by
    rcases h3 with h | h
    · simp [h]
    · simp [h]
  simp [CallRet, CallRetCore, hdiv, h200, hcond, ResponseError_le299 resp h2]

/-- C1 witness: the amended statement at the concrete 201 response. -/
theorem C1_amended_witness :
    201 ≤ respC1.statusCode ∧
      (CallRet decUnit false respC1).err =
        some (CallErr.respErr
          { Err := "", Key := "", Reqid := headerGet respC1.header "X-Reqid",
            Errno := 0, Code := respC1.statusCode }) :=
  ⟨by decide, C1_amended decUnit false respC1 (by decide) (by decide) (Or.inl rfl)⟩

/-- C2 counterexample: a 201 response (status in [200,299]) with a non-nil
destination and a decodable body; the destination is populated but `CallRet`
returns a non-nil error, contradicting the claim's "returns no error". -/
theorem C2_counterexample :
    respC2.statusCode = 201 ∧ decNat7 respC2.body = some (7, "") ∧
      (CallRet decNat7 true respC2).dest = some 7 ∧
      (CallRet decNat7 true respC2).err ≠ none := by
  decide

/-- C2 (amended): for a response with status exactly 200, a non-nil
destination, and a non-empty JSON-decodable body, `CallRet` returns no
error, the destination holds the decoded value, and the body stream is
fully drained and closed.  (For statuses 201-299 the destination is also
populated, but a non-nil `ErrorInfo` is returned.) -/
theorem C2_amended {α : Type} (decode : String → Option (α × String))
    (resp : Response) (v : α) (rest : String)
    (h1 : resp.statusCode = 200) (h2 : resp.contentLength ≠ 0)
    (h3 : decode resp.body = some (v, rest)) :
    (CallRet decode true resp).err = none ∧
      (CallRet decode true resp).dest = some v ∧
      (CallRet decode true resp).body = { remaining := "", closed := true } := by
  simp [CallRet, CallRetCore, drainAndClose, h1, h2, h3]

/-- C2 witness: the amended statement at a concrete 200 response with body
`7`. -/
theorem C2_amended_witness :
    respC2w.statusCode = 200 ∧
      (CallRet decNat7 true respC2w).err = none ∧
      (CallRet decNat7 true respC2w).dest = some 7 ∧
      (CallRet decNat7 true respC2w).body = { remaining := "", closed := true } := by
  have h := C2_amended decNat7 respC2w 7 "" rfl (by decide) (by decide)
  exact ⟨rfl, h.1, h.2.1, h.2.2⟩

/-- C3: for every response with status outside [200,299], `CallRet` returns
an `ErrorInfo` whose `Code` is the HTTP status and whose `Reqid` is the
response's `X-Reqid` header. -/
theorem C3_error_code_reqid {α : Type} (decode : String → Option (α × String))
    (retSupplied : Bool) (resp : Response)
    (h : ¬ (200 ≤ resp.statusCode ∧ resp.statusCode ≤ 299)) :
    ∃ e, (CallRet decode retSupplied resp).err = some (CallErr.respErr e) ∧
      e.Code = resp.statusCode ∧ e.Reqid = headerGet resp.header "X-Reqid" := by
  have hdiv : ¬ resp.statusCode / 100 = 2 := by omega
  refine ⟨(ResponseError resp).1, ?_, ResponseError_Code resp, ResponseError_Reqid resp⟩
  simp [CallRet, CallRetCore, hdiv]

/-- C3 witness: the statement at a concrete 404 response carrying an
`X-Reqid` header. -/
theorem C3_witness :
    ¬ (200 ≤ respC3.statusCode ∧ respC3.statusCode ≤ 299) ∧
      ∃ e, (CallRet decUnit false respC3).err = some (CallErr.respErr e) ∧
        e.Code = respC3.statusCode ∧ e.Reqid = headerGet respC3.header "X-Reqid" :=
  ⟨by decide, C3_error_code_reqid decUnit false respC3 (by decide)⟩

/-- C8: on every path through `CallRet` — success, decode failure, or error
— the response body is fully drained and closed before the call returns. -/
theorem C8_body_drained_closed {α : Type} (decode : String → Option (α × String))
    (retSupplied : Bool) (resp : Response) :
    (CallRet decode retSupplied resp).body.remaining = "" ∧
      (CallRet decode retSupplied resp).body.closed = true := by
  simp [CallRet, drainAndClose]

/-- C8 witness: the statement at a concrete response and decoder. -/
theorem C8_witness :
    (CallRet decUnit false respC4).body.remaining = "" ∧
      (CallRet decUnit false respC4).body.closed = true :=
  C8_body_drained_closed decUnit false respC4

/-- C10: for a response with status in [201,299], a non-nil destination and
a non-empty decodable body, `CallRet` both populates the destination with
the decoded value and returns a non-nil `ErrorInfo` with empty `Err` and
`Key`, zero `Errno`, and `Code` equal to the status. -/
theorem C10_populates_and_errors {α : Type} (decode : String → Option (α × String))
    (resp : Response) (v : α) (rest : String)
    (h1 : 201 ≤ resp.statusCode) (h2 : resp.statusCode ≤ 299)
    (h3 : resp.contentLength ≠ 0) (h4 : decode resp.body = some (v, rest)) :
    (CallRet decode true resp).dest = some v ∧
      (CallRet decode true resp).err =
        some (CallErr.respErr
          { Err := "", Key := "", Reqid := headerGet resp.header "X-Reqid",
            Errno := 0, Code := resp.statusCode }) := by
  have hdiv : resp.statusCode / 100 = 2 := by omega
  have h200 : ¬ resp.statusCode = 200 := by omega
  have hre := ResponseError_le299 { resp with body := rest } h2
  simp [CallRet, CallRetCore, hdiv, h200, h3, h4, hre]

/-- C10 witness: the statement at the concrete 201 response with body `7`. -/
theorem C10_witness :
    201 ≤ respC2.statusCode ∧
      (CallRet decNat7 true respC2).dest = some 7 ∧
      (CallRet decNat7 true respC2).err =
        some (CallErr.respErr
          { Err := "", Key := "", Reqid := headerGet respC2.header "X-Reqid",
            Errno := 0, Code := respC2.statusCode }) := by
  have h := C10_populates_and_errors decNat7 respC2 7 "" (by decide) (by decide)
    (by decide) (by decide)
  exact ⟨by decide, h.1, h.2⟩

end QiniuClient

namespace QiniuClient

/-- C4 counterexample: a non-2xx (400) response whose body is the non-JSON
text `internal failure` under `Content-Type: text/plain`.  The claim asserts
`Err == "internal failure"` for any content type, but the body is parsed
only under `application/json`, so `Err` stays empty. -/
theorem C4_counterexample :
    ¬ (200 ≤ respC4.statusCode ∧ respC4.statusCode ≤ 299) ∧
      respC4.body = "internal failure" ∧
      (ResponseError respC4).1.Err = "" ∧
      (ResponseError respC4).1.Err ≠ "internal failure" := by
  decide

/-- C4 (amended): for a response with status above 299, non-zero
`ContentLength`, and a first `Content-Type` value beginning with
`application/json`, a body of the non-JSON text `internal failure` makes
the verbatim body text the error message; under any other content type (or
a non-2xx status not above 299, or an empty body) the message stays
empty. -/
theorem C4_amended (resp : Response) (ct : String) (rest : List String)
    (h1 : resp.statusCode > 299) (h2 : resp.contentLength ≠ 0)
    (h3 : headerIndex resp.header "Content-Type" = some (ct :: rest))
    (h4 : strStartsWith ct "application/json" = true)
    (h5 : resp.body = "internal failure") :
    (ResponseError resp).1.Err = "internal failure" := by
  have hu : Json.unmarshalErrRet "internal failure" = none := by decide
  simp [ResponseError, parseError, h1, h2, h3, h4, h5, hu]

/-- C4 witness: the amended statement at the concrete 400 response with
`Content-Type: application/json`. -/
theorem C4_amended_witness :
    respC4j.statusCode > 299 ∧ (ResponseError respC4j).1.Err = "internal failure" :=
  ⟨by decide,
    C4_amended respC4j "application/json" [] (by decide) (by decide) (by decide)
      (by decide) rfl⟩

/-- C5 counterexample: a non-2xx (199) response with a non-empty body under
`Content-Type: application/json` whose body parses as JSON with a non-empty
`error` field; the claim asserts the fields are copied, but the body is
parsed only when the status exceeds 299, so all error fields stay zero. -/
theorem C5_counterexample :
    ¬ (200 ≤ respC5.statusCode ∧ respC5.statusCode ≤ 299) ∧
      Json.unmarshalErrRet respC5.body = some ⟨"bad token", "k1", 612⟩ ∧
      headerGet respC5.header "Content-Type" = "application/json" ∧
      (ResponseError respC5).1.Err = "" ∧ (ResponseError respC5).1.Errno = 0 := by
  decide

/-- C5 (amended): for a response with status above 299, non-zero
`ContentLength`, and a first `Content-Type` value beginning with
`application/json`: if the body unmarshals as `{error, key, errno}` with a
non-empty `error`, those fields are copied into the `ErrorInfo`; if the
`error` field is empty or unmarshalling fails, the verbatim body text
becomes the message. -/
theorem C5_amended (resp : Response) (ct : String) (rest : List String)
    (h1 : resp.statusCode > 299) (h2 : resp.contentLength ≠ 0)
    (h3 : headerIndex resp.header "Content-Type" = some (ct :: rest))
    (h4 : strStartsWith ct "application/json" = true) :
    (∀ r, Json.unmarshalErrRet resp.body = some r → r.Err ≠ "" →
        (ResponseError resp).1.Err = r.Err ∧ (ResponseError resp).1.Key = r.Key ∧
          (ResponseError resp).1.Errno = r.Errno) ∧
      (∀ r, Json.unmarshalErrRet resp.body = some r → r.Err = "" →
        (ResponseError resp).1.Err = resp.body) ∧
      (Json.unmarshalErrRet resp.body = none →
        (ResponseError resp).1.Err = resp.body) := by
  have hre : ResponseError resp =
      (parseError
        { Err := "", Key := "", Reqid := headerGet resp.header "X-Reqid",
          Errno := 0, Code := resp.statusCode } resp.body, "") := by
    simp [ResponseError, h1, h2, h3, h4]
  refine ⟨?_, ?_, ?_⟩
  · intro r hr hne
    simp [hre, parseError, hr, hne]
  · intro r hr heq
    simp [hre, parseError, hr, heq]
  · intro hn
    simp [hre, parseError, hn]

/-- C5 witness: the amended statement at a concrete 400 response carrying
the JSON error body from the spec's example. -/
theorem C5_amended_witness :
    respC5w.statusCode > 299 ∧
      (ResponseError respC5w).1.Err = "bad token" ∧
      (ResponseError respC5w).1.Key = "k1" ∧
      (ResponseError respC5w).1.Errno = 612 := by
  have h := (C5_amended respC5w "application/json" [] (by decide) (by decide)
      (by decide) (by decide)).1 ⟨"bad token", "k1", 612⟩ (by decide) (by decide)
  exact ⟨by decide, h.1, h.2.1, h.2.2⟩

/-- C6: a context already cancelled before dispatch makes `Do` return the
context's error (`CancellationError`) without invoking the transport. -/
theorem C6_cancelled_no_dispatch (ua : String) (ctx : Ctx) (req : Request)
    (transport : Request → Option Response × Option String)
    (h : ctx.cancelled = true) :
    (Do ua ctx req transport).err = some DoErr.cancelled ∧
      (Do ua ctx req transport).transportInvoked = false ∧
      (Do ua ctx req transport).resp = none := by
  simp [Do, h]

/-- C6 witness: the statement at a concrete cancelled context. -/
theorem C6_witness :
    (Do "ua" { cancelled := true, reqid := none } reqNoUA transportNone).err
        = some DoErr.cancelled ∧
      (Do "ua" { cancelled := true, reqid := none } reqNoUA transportNone).transportInvoked
        = false ∧
      (Do "ua" { cancelled := true, reqid := none } reqNoUA transportNone).resp = none :=
  C6_cancelled_no_dispatch "ua" { cancelled := true, reqid := none } reqNoUA transportNone rfl

/-- C7: for GET/HEAD/DELETE the URL-encoded form is appended to the URL
(after `&` if the URL already contains `?`, else after `?`) and the request
carries no body; for every other method the encoding becomes the body and
the headers carry `Content-Type: application/x-www-form-urlencoded`. -/
theorem C7_form_request (method reqUrl : String) (headers : Option Header)
    (data : List (String × List String)) :
    ((method = "GET" ∨ method = "HEAD" ∨ method = "DELETE") →
        (DoRequestWithForm method reqUrl headers data).url =
            (if containsRune reqUrl '?' then reqUrl ++ "&" else reqUrl ++ "?")
              ++ urlValuesEncode data ∧
          (DoRequestWithForm method reqUrl headers data).reqBody = none) ∧
      (¬ (method = "GET" ∨ method = "HEAD" ∨ method = "DELETE") →
        (DoRequestWithForm method reqUrl headers data).url = reqUrl ∧
          (DoRequestWithForm method reqUrl headers data).reqBody
            = some (urlValuesEncode data) ∧
          ∃ vs,
            headerIndex (DoRequestWithForm method reqUrl headers data).headers
                "Content-Type" = some vs ∧
              "application/x-www-form-urlencoded" ∈ vs) := by
  constructor
  · intro h
    rcases h with h | h | h <;> subst h <;> simp [DoRequestWithForm]
  · intro h
    refine ⟨by simp [DoRequestWithForm, h], by simp [DoRequestWithForm, h], ?_⟩
    simp only [DoRequestWithForm]
    rw [if_neg h]
    exact headerAdd_mem _ _ _

/-- C7 witness: the spec's concrete examples — GET of `a=1` on `http://x/y`
and on `http://x/y?z=2`, and POST of the same data. -/
theorem C7_witness :
    (DoRequestWithForm "GET" "http://x/y" none [("a", ["1"])]).url = "http://x/y?a=1" ∧
      (DoRequestWithForm "GET" "http://x/y" none [("a", ["1"])]).reqBody = none ∧
      (DoRequestWithForm "GET" "http://x/y?z=2" none [("a", ["1"])]).url
        = "http://x/y?z=2&a=1" ∧
      (DoRequestWithForm "POST" "http://x/y" none [("a", ["1"])]).reqBody = some "a=1" ∧
      headerGet (DoRequestWithForm "POST" "http://x/y" none [("a", ["1"])]).headers
          "Content-Type" = "application/x-www-form-urlencoded" := by
  have h1 := (C7_form_request "GET" "http://x/y" none [("a", ["1"])]).1 (Or.inl rfl)
  have h2 := (C7_form_request "GET" "http://x/y?z=2" none [("a", ["1"])]).1 (Or.inl rfl)
  have h3 := (C7_form_request "POST" "http://x/y" none [("a", ["1"])]).2 (by decide)
  exact ⟨h1.1.trans (by decide), h1.2, h2.1.trans (by decide),
    h3.2.1.trans (by decide), by decide⟩

/-- When the caller set no `User-Agent` header, `Do` sets it to the
package-level `UserAgent` string, whatever the context holds. -/
theorem Do_sets_default_user_agent (ua : String) (ctx : Ctx) (req : Request)
    (transport : Request → Option Response × Option String)
    (h : headerIndex req.header "User-Agent" = none) :
    headerGet (Do ua ctx req transport).req.header "User-Agent" = ua := by
  unfold Do
  cases hr : ctx.reqid with
  | none =>
    by_cases hc : ctx.cancelled <;> simp [hr, hc, h, headerGet_headerSet]
  | some rid =>
    have h2 : headerIndex (headerSet req.header "X-Reqid" rid) "User-Agent" = none := by
      rw [headerIndex_headerSet_ne _ _ _ _ (by decide)]
      exact h
    by_cases hc : ctx.cancelled <;> simp [hr, hc, h2, headerGet_headerSet]

/-- C9 counterexample: `SetAppName` accepts an application name containing
`!` — a character outside `[A-Za-z0-9_ -.]` — without error and embeds it
verbatim in the `User-Agent` string: no validation is performed (the
character set appears only in a source comment). -/
theorem C9_counterexample :
    (SetAppName "7.0" "linux" "amd64" "go1.20" "bad!app").2 = none ∧
      appNameCharsetValid "bad!app" = false ∧
      (SetAppName "7.0" "linux" "amd64" "go1.20" "bad!app").1
        = "QiniuGo/7.0 (linux; amd64; bad!app) go1.20" := by
  decide

/-- C9 (amended): when the caller set no explicit `User-Agent`, `Do` sets
the header to the package-level `UserAgent`, which `SetAppName` formats as
`QiniuGo/<version> (<os>; <arch>; <app>) <go-version>` for any application
name whatsoever — `SetAppName` never fails and performs no validation of
the documented `[A-Za-z0-9_ -.]` character set. -/
theorem C9_amended (version goos goarch gover app : String) (ctx : Ctx)
    (req : Request) (transport : Request → Option Response × Option String)
    (h : headerIndex req.header "User-Agent" = none) :
    (SetAppName version goos goarch gover app).2 = none ∧
      (SetAppName version goos goarch gover app).1
        = "QiniuGo/" ++ version ++ " (" ++ goos ++ "; " ++ goarch ++ "; "
            ++ app ++ ") " ++ gover ∧
      headerGet
          (Do (SetAppName version goos goarch gover app).1 ctx req transport).req.header
          "User-Agent"
        = (SetAppName version goos goarch gover app).1 :=
  ⟨rfl, rfl, Do_sets_default_user_agent _ ctx req transport h⟩

/-- C9 witness: the amended statement at concrete build parameters, an
uncancelled context, and a request with no caller-set headers. -/
theorem C9_amended_witness :
    headerIndex reqNoUA.header "User-Agent" = none ∧
      (SetAppName "7.0" "linux" "amd64" "go1.20" "app one").2 = none ∧
      (SetAppName "7.0" "linux" "amd64" "go1.20" "app one").1
        = "QiniuGo/7.0 (linux; amd64; app one) go1.20" ∧
      headerGet
          (Do (SetAppName "7.0" "linux" "amd64" "go1.20" "app one").1
            { cancelled := false, reqid := none } reqNoUA transportNone).req.header
          "User-Agent"
        = (SetAppName "7.0" "linux" "amd64" "go1.20" "app one").1 := by
  have h := C9_amended "7.0" "linux" "amd64" "go1.20" "app one"
    { cancelled := false, reqid := none } reqNoUA transportNone rfl
  exact ⟨rfl, h.1, h.2.1.trans (by decide), h.2.2⟩

end QiniuClient
